import Mathlib

/-!
Verification of the operator-dispatch and broadcasting core of the
arrayfire-haskell header `src/include/arith.h`.

The repository ships only the declaration list (70 entry points of the form
`af_err af_op(af_array *out, ...)`); the dispatch engine, shape broadcaster,
type-promotion resolver and error contract they must funnel through are
specified in the design document but absent from the sources.  The
definitions below therefore model that core from the specification text
(each doc comment says which section), while the operator identity list
itself is transcribed from the header.
-/

namespace ArrayFire

/-- Modelled from the spec: §3 "Element Type" and §4.1 — the fixed element
type enumeration: boolean, 8/16/32/64-bit signed/unsigned integers, single
and double precision floats, complex of single/double.  (The concrete
`af_dtype` enum lives in the missing `defines.h`.) -/
inductive Dtype where
  | b8 | s8 | u8 | s16 | u16 | s32 | u32 | s64 | u64
  | f32 | f64 | c32 | c64
deriving DecidableEq, Repr, Fintype

/-- Modelled from the spec: §4.1 — position of a type in the promotion
lattice "boolean < 8/16/32/64-bit signed/unsigned integer (widening,
unsigned wins ties of equal width) < single-precision float <
double-precision float < single-precision complex < double-precision
complex". -/
def Dtype.rank : Dtype → Nat
  | .b8 => 0
  | .s8 => 1
  | .u8 => 2
  | .s16 => 3
  | .u16 => 4
  | .s32 => 5
  | .u32 => 6
  | .s64 => 7
  | .u64 => 8
  | .f32 => 9
  | .f64 => 10
  | .c32 => 11
  | .c64 => 12

/-- Promotion-lattice order (§4.1). -/
def Dtype.below (a b : Dtype) : Prop := a.rank ≤ b.rank

instance : DecidablePred fun p : Dtype × Dtype => p.1.below p.2 :=
  fun p => (inferInstance : Decidable (p.1.rank ≤ p.2.rank))

instance (a b : Dtype) : Decidable (a.below b) :=
  (inferInstance : Decidable (a.rank ≤ b.rank))

/-- Modelled from the spec: §4.1 — the join (least upper bound) of two
operand types in the promotion lattice. -/
def promote (a b : Dtype) : Dtype := if a.rank ≤ b.rank then b else a

def Dtype.isComplex : Dtype → Bool
  | .c32 | .c64 => true
  | _ => false

def Dtype.isFloating : Dtype → Bool
  | .f32 | .f64 => true
  | _ => false

/-- A floating-point or complex type (rejected by bitwise/shift operators,
§4.1). -/
def Dtype.isFloatOrComplex (t : Dtype) : Bool := t.isFloating || t.isComplex

/-- Modelled from the spec: §4.1 — complex counterpart of a type, used when
resolving the complex-construction operators (double-precision input gives
double-precision complex, anything else single-precision complex). -/
def complexify : Dtype → Dtype
  | .f64 => .c64
  | .c64 => .c64
  | .c32 => .c32
  | _ => .c32

/-- Modelled from the spec: §4.1 — real counterpart of a type, used when
resolving the real/imag projections. -/
def realify : Dtype → Dtype
  | .c32 => .f32
  | .c64 => .f64
  | t => t

/-- Modelled from the spec: §4.1 — the library default floating type an
integer input is promoted to by the gamma/trig/exp/log families: narrower
integers and booleans go to single precision, 64-bit integers to double
precision. -/
def defaultFloat : Dtype → Dtype
  | .s64 => .f64
  | .u64 => .f64
  | _ => .f32

/-- Modelled from the spec: §7 — the error taxonomy of the result contract.
`AF_SUCCESS` of the C `af_err` is represented separately as the absence of
an error (`Option AFError`). -/
inductive AFError where
  | invalidArgument
  | invalidType
  | typeMismatch
  | shapeMismatch
  | backendFailure
deriving DecidableEq, Repr

/-- Modelled from the spec: §3 "Shape" — an ordered sequence of dimension
extents at the fixed maximum rank 4. -/
structure Dim4 where
  d0 : Nat
  d1 : Nat
  d2 : Nat
  d3 : Nat
deriving DecidableEq, Repr

def Dim4.get (d : Dim4) (i : Fin 4) : Nat :=
  match i with
  | ⟨0, _⟩ => d.d0
  | ⟨1, _⟩ => d.d1
  | ⟨2, _⟩ => d.d2
  | ⟨3, _⟩ => d.d3

/-- Modelled from the spec: §4.2 — "missing trailing dimensions treated as
extent 1": a shape given as a short extent list, padded to rank 4. -/
def padShape (l : List Nat) : Dim4 := ⟨l.getD 0 1, l.getD 1 1, l.getD 2 1, l.getD 3 1⟩

/-- Modelled from the spec: §4.2 — per-operand read plan: for each
dimension, whether the operand is replayed with a zero-stride read
(logical replication) instead of its natural stride. -/
structure StridePlan where
  z0 : Bool
  z1 : Bool
  z2 : Bool
  z3 : Bool
deriving DecidableEq, Repr

/-- The identity (no-replication) plan of §4.2. -/
def identityPlan : StridePlan := ⟨false, false, false, false⟩

/-- A pair of extents is broadcastable when they are equal or at least one
is exactly 1 (§4.2). -/
def broadcastableDim (a b : Nat) : Bool := a = b || a = 1 || b = 1

/-- Modelled from the spec: §4.2, batch = true case, one dimension —
extents must be equal or one of them exactly 1; the output extent is the
larger one; an extent-1 side broadcast against a larger extent gets a
zero-stride flag; otherwise natural stride.  Returns
(output extent, zero-stride for A, zero-stride for B). -/
def broadcastDim (a b : Nat) : Except AFError (Nat × Bool × Bool) :=
  if a = b then .ok (a, false, false)
  else if a = 1 then .ok (max a b, true, false)
  else if b = 1 then .ok (max a b, false, true)
  else .error .shapeMismatch

/-- Modelled from the spec: §4.2, batch = true — dimension-by-dimension
broadcasting up to the fixed maximum rank; the first incompatible
dimension pair is a `ShapeMismatch` failure. -/
def broadcastBatch (a b : Dim4) : Except AFError (Dim4 × StridePlan × StridePlan) :=
  match broadcastDim a.d0 b.d0, broadcastDim a.d1 b.d1,
        broadcastDim a.d2 b.d2, broadcastDim a.d3 b.d3 with
  | .ok (o0, x0, y0), .ok (o1, x1, y1), .ok (o2, x2, y2), .ok (o3, x3, y3) =>
      .ok (⟨o0, o1, o2, o3⟩, ⟨x0, x1, x2, x3⟩, ⟨y0, y1, y2, y3⟩)
  | .error e, _, _, _ => .error e
  | _, .error e, _, _ => .error e
  | _, _, .error e, _ => .error e
  | _, _, _, .error e => .error e

/-- Modelled from the spec: §4.2, batch = false — every dimension extent of
A must equal the corresponding extent of B exactly; output shape is the
operand shape with identity stride rules; any mismatch is `ShapeMismatch`.
-/
def broadcastExact (a b : Dim4) : Except AFError (Dim4 × StridePlan × StridePlan) :=
  if a.d0 = b.d0 then
    if a.d1 = b.d1 then
      if a.d2 = b.d2 then
        if a.d3 = b.d3 then .ok (a, identityPlan, identityPlan)
        else .error .shapeMismatch
      else .error .shapeMismatch
    else .error .shapeMismatch
  else .error .shapeMismatch

/-- Modelled from the spec: §4.2 — the Shape Broadcaster contract
`broadcast(shapeA, shapeB, batch)`. -/
def broadcast (a b : Dim4) (batch : Bool) : Except AFError (Dim4 × StridePlan × StridePlan) :=
  if batch then broadcastBatch a b else broadcastExact a b

/-- Elementwise maximum of two shapes. -/
def dimMax (a b : Dim4) : Dim4 := ⟨max a.d0 b.d0, max a.d1 b.d1, max a.d2 b.d2, max a.d3 b.d3⟩

/-- The 70 operator identities declared in `src/include/arith.h`, one
constructor per `af_*` entry point, in header order. -/
inductive OpId where
  | add | sub | mul | div
  | lt | gt | le | ge | eq | neq
  | and | or | not
  | bitand | bitor | bitxor | bitshiftl | bitshiftr
  | cast
  | minof | maxof
  | clamp
  | rem | mod
  | abs | arg | sign | round | trunc | floor | ceil
  | hypot
  | sin | cos | tan | asin | acos | atan
  | atan2
  | cplx2 | cplx | real | imag | conjg
  | sinh | cosh | tanh | asinh | acosh | atanh
  | root | pow | pow2
  | exp | sigmoid | expm1 | erf | erfc
  | log | log1p | log10 | log2
  | sqrt | cbrt
  | factorial | tgamma | lgamma
  | iszero | isinf | isnan
deriving DecidableEq, Repr

/-- All 70 header entry points, in the order `arith.h` declares them. -/
def headerOps : List OpId :=
  [.add, .sub, .mul, .div, .lt, .gt, .le, .ge, .eq, .neq,
   .and, .or, .not, .bitand, .bitor, .bitxor, .bitshiftl, .bitshiftr,
   .cast, .minof, .maxof, .clamp, .rem, .mod,
   .abs, .arg, .sign, .round, .trunc, .floor, .ceil,
   .hypot, .sin, .cos, .tan, .asin, .acos, .atan, .atan2,
   .cplx2, .cplx, .real, .imag, .conjg,
   .sinh, .cosh, .tanh, .asinh, .acosh, .atanh,
   .root, .pow, .pow2, .exp, .sigmoid, .expm1, .erf, .erfc,
   .log, .log1p, .log10, .log2, .sqrt, .cbrt,
   .factorial, .tgamma, .lgamma, .iszero, .isinf, .isnan]

/-- Modelled from the spec: §6 — the operator catalog enumeration, exactly
as the specification lists it (arithmetic: add/sub/mul/div/rem/mod/minof/
maxof/pow/root/hypot/atan2; comparison: lt/gt/le/ge/eq/neq; logical:
and/or/not; bitwise: bitand/bitor/bitxor/bitshiftl/bitshiftr; cast; unary
math: abs/arg/sign/round/trunc/floor/ceil/sqrt/cbrt/exp/expm1/log/log1p/
log10/log2/sigmoid/erf/erfc/factorial/tgamma/lgamma; trig/hyperbolic:
sin/cos/tan/asin/acos/atan/sinh/cosh/tanh/asinh/acosh/atanh; complex:
cplx/cplx2/real/imag/conjg; predicates: iszero/isinf/isnan; ternary:
clamp). -/
def specCatalog : List OpId :=
  [.add, .sub, .mul, .div, .rem, .mod, .minof, .maxof, .pow, .root, .hypot, .atan2,
   .lt, .gt, .le, .ge, .eq, .neq,
   .and, .or, .not,
   .bitand, .bitor, .bitxor, .bitshiftl, .bitshiftr,
   .cast,
   .abs, .arg, .sign, .round, .trunc, .floor, .ceil, .sqrt, .cbrt, .exp, .expm1,
   .log, .log1p, .log10, .log2, .sigmoid, .erf, .erfc, .factorial, .tgamma, .lgamma,
   .sin, .cos, .tan, .asin, .acos, .atan, .sinh, .cosh, .tanh, .asinh, .acosh, .atanh,
   .cplx2, .cplx, .real, .imag, .conjg,
   .iszero, .isinf, .isnan,
   .clamp]

/-- Modelled from the spec: §4.3 — operator classes of the catalog,
following the grouping of the §6 enumeration. -/
inductive OpClass where
  | arithmetic
  | comparison
  | logical
  | bitwise
  | castOp
  | unaryMath
  | trig
  | complexOp
  | predicate
  | ternary
deriving DecidableEq, Repr

/-- Modelled from the spec: §4.3/§6 — the class of each operator. -/
def opClass : OpId → OpClass
  | .add | .sub | .mul | .div | .rem | .mod | .minof | .maxof
  | .pow | .root | .hypot | .atan2 => .arithmetic
  | .lt | .gt | .le | .ge | .eq | .neq => .comparison
  | .and | .or | .not => .logical
  | .bitand | .bitor | .bitxor | .bitshiftl | .bitshiftr => .bitwise
  | .cast => .castOp
  | .abs | .arg | .sign | .round | .trunc | .floor | .ceil | .sqrt | .cbrt
  | .exp | .expm1 | .log | .log1p | .log10 | .log2 | .sigmoid | .erf | .erfc
  | .factorial | .tgamma | .lgamma | .pow2 => .unaryMath
  | .sin | .cos | .tan | .asin | .acos | .atan
  | .sinh | .cosh | .tanh | .asinh | .acosh | .atanh => .trig
  | .cplx2 | .cplx | .real | .imag | .conjg => .complexOp
  | .iszero | .isinf | .isnan => .predicate
  | .clamp => .ternary

/-- Modelled from the spec: §4.3 — catalog arity of each operator (the
header signature: one, two or three array operands). -/
def arity : OpId → Nat
  | .add | .sub | .mul | .div | .rem | .mod | .minof | .maxof
  | .pow | .root | .hypot | .atan2
  | .lt | .gt | .le | .ge | .eq | .neq
  | .and | .or
  | .bitand | .bitor | .bitxor | .bitshiftl | .bitshiftr
  | .cplx2 => 2
  | .clamp => 3
  | _ => 1

/-- Modelled from the spec: §4.3 — the catalog's domain predicate over
operand types: "both integer" for bitwise/shift, "no complex" for
comparison, and the complex-construction operators take floating real
input; operators with no stated restriction accept every type. -/
def domainOK : OpId → List Dtype → Bool
  | .bitand, ts | .bitor, ts | .bitxor, ts | .bitshiftl, ts | .bitshiftr, ts =>
      ts.all fun t => !t.isFloatOrComplex
  | .lt, ts | .gt, ts | .le, ts | .ge, ts | .eq, ts | .neq, ts =>
      ts.all fun t => !t.isComplex
  | .cplx2, ts | .cplx, ts => ts.all fun t => t.isFloating
  | _, _ => true

/-- Modelled from the spec: §4.1 — unary operators of the gamma/trig/exp/
log families promote an integer input to the default floating type; the
rounding, sign, absolute-value and complex-projection operators do not. -/
def promotesIntToFloat : OpId → Bool
  | .sqrt | .cbrt | .exp | .expm1 | .log | .log1p | .log10 | .log2
  | .sigmoid | .erf | .erfc | .factorial | .tgamma | .lgamma | .pow2
  | .sin | .cos | .tan | .asin | .acos | .atan
  | .sinh | .cosh | .tanh | .asinh | .acosh | .atanh => true
  | _ => false

/-- Modelled from the spec: §4.1, unary rule — predicates and logical not
resolve to boolean; real/imag project to the real counterpart; cplx to the
complex counterpart; the transcendental families promote integer input to
the default floating type; everything else keeps the input type. -/
def unaryResultType (op : OpId) (t : Dtype) : Dtype :=
  if opClass op = .predicate || op = .not then .b8
  else if op = .real || op = .imag then realify t
  else if op = .cplx then complexify t
  else if promotesIntToFloat op && !t.isFloatOrComplex then defaultFloat t
  else t

/-- Modelled from the spec: §4.1, binary rule — comparison/logical
operators promote for the comparison but resolve to boolean; the complex
constructor resolves to the complex counterpart of the join; arithmetic
and bitwise operators resolve to the lattice join of the operand types. -/
def binaryResultType (op : OpId) (a b : Dtype) : Dtype :=
  match opClass op with
  | .comparison | .logical => .b8
  | .complexOp => complexify (promote a b)
  | _ => promote a b

/-- An element value: a real and an imaginary component.  Real-typed
arrays carry a zero imaginary component.  (Numeric values are modelled
exactly; IEEE rounding is outside the dispatch core being specified.) -/
structure CVal where
  re : Rat
  im : Rat
deriving DecidableEq, Repr

/-- Modelled from the spec: §3 "Array Handle" — the observable content of
a live array handle: element type, shape, and the backing values. -/
structure AFArray where
  dtype : Dtype
  shape : Dim4
  data : List CVal
deriving DecidableEq, Repr

/-- Modelled from the spec: §3 "Operator Descriptor" — {operator id,
resolved result type, resolved output shape, per-operand broadcast-stride
plan}, constructed fresh per call. -/
structure OpDescriptor where
  op : OpId
  resultType : Dtype
  outShape : Dim4
  plans : List StridePlan

/-- Modelled from the spec: §1/§4.4 step 6 — the external execution
backend capability: it accepts a resolved operation descriptor and the
input arrays and produces an output array or a backend-level failure. -/
def Backend := OpDescriptor → List AFArray → Except AFError AFArray

/-- Modelled from the spec: §4.4 step 1 — arity of the call must match the
catalog entry; failure is `InvalidArgument`. -/
def validateArity (op : OpId) (n : Nat) : Except AFError Unit :=
  if arity op = n then .ok () else .error .invalidArgument

/-- Modelled from the spec: §4.4 step 2 — the catalog domain predicate is
consulted against the operand types; failure is `InvalidType`. -/
def domainCheck (op : OpId) (ts : List Dtype) : Except AFError Unit :=
  if domainOK op ts then .ok () else .error .invalidType

/-- Modelled from the spec: §4.4 — the dispatch state machine for a binary
entry point, terminal on first failure: validate, domain check, promote,
broadcast, build descriptor, execute. -/
def dispatchBinary (be : Backend) (op : OpId) (l r : AFArray) (batch : Bool) :
    Except AFError AFArray :=
  match validateArity op 2 with
  | .error e => .error e
  | .ok _ =>
    match domainCheck op [l.dtype, r.dtype] with
    | .error e => .error e
    | .ok _ =>
      match broadcast l.shape r.shape batch with
      | .error e => .error e
      | .ok (sh, pa, pb) =>
          be ⟨op, binaryResultType op l.dtype r.dtype, sh, [pa, pb]⟩ [l, r]

/-- Modelled from the spec: §4.4/§4.2 — the dispatch state machine for a
unary entry point; unary operators skip the Shape Broadcaster entirely and
the output shape equals the input shape. -/
def dispatchUnary (be : Backend) (op : OpId) (x : AFArray) : Except AFError AFArray :=
  match validateArity op 1 with
  | .error e => .error e
  | .ok _ =>
    match domainCheck op [x.dtype] with
    | .error e => .error e
    | .ok _ => be ⟨op, unaryResultType op x.dtype, x.shape, [identityPlan]⟩ [x]

/-- Modelled from the spec: §4.2 — the clamp ternary operator broadcasts
(input, lo) and (input, hi) pairwise and independently, then requires the
two resulting output shapes to be identical; a mismatch between them is
also `ShapeMismatch`. -/
def dispatchClamp (be : Backend) (x lo hi : AFArray) (batch : Bool) :
    Except AFError AFArray :=
  match validateArity .clamp 3 with
  | .error e => .error e
  | .ok _ =>
    match domainCheck .clamp [x.dtype, lo.dtype, hi.dtype] with
    | .error e => .error e
    | .ok _ =>
      match broadcast x.shape lo.shape batch with
      | .error e => .error e
      | .ok (s1, p1, p2) =>
        match broadcast x.shape hi.shape batch with
        | .error e => .error e
        | .ok (s2, _, p3) =>
          if s1 = s2 then
            be ⟨.clamp, promote (promote x.dtype lo.dtype) hi.dtype, s1, [p1, p2, p3]⟩
               [x, lo, hi]
          else .error .shapeMismatch

/-- Modelled from the spec: §4.5 — the uniform entry-point wrapper: on
dispatch success exactly one new output handle is written to the
caller-provided output slot and success is returned; on any failure the
slot is left untouched and the discriminated error is returned. -/
def reportTo (slot : Option AFArray) :
    Except AFError AFArray → Option AFArray × Option AFError
  | .ok out => (some out, none)
  | .error e => (slot, some e)

/-- A binary `af_*` entry point (e.g. `af_add`), as seen by the caller:
output slot before the call in, (output slot, status) out. -/
def afBinary (be : Backend) (op : OpId) (slot : Option AFArray)
    (l r : AFArray) (batch : Bool) : Option AFArray × Option AFError :=
  reportTo slot (dispatchBinary be op l r batch)

/-- A unary `af_*` entry point (e.g. `af_real`). -/
def afUnary (be : Backend) (op : OpId) (slot : Option AFArray)
    (x : AFArray) : Option AFArray × Option AFError :=
  reportTo slot (dispatchUnary be op x)

/-- The `af_clamp` entry point. -/
def afClamp (be : Backend) (slot : Option AFArray)
    (x lo hi : AFArray) (batch : Bool) : Option AFArray × Option AFError :=
  reportTo slot (dispatchClamp be x lo hi batch)

/-- Encoding of `Dtype` as the C-side `af_dtype` integer carried by
`af_cast`. -/
def encodeDtype (t : Dtype) : Nat := t.rank

/-- Decoding of a C-side `af_dtype` value; values outside the enumeration
are invalid. -/
def decodeDtype : Nat → Option Dtype
  | 0 => some .b8
  | 1 => some .s8
  | 2 => some .u8
  | 3 => some .s16
  | 4 => some .u16
  | 5 => some .s32
  | 6 => some .u32
  | 7 => some .s64
  | 8 => some .u64
  | 9 => some .f32
  | 10 => some .f64
  | 11 => some .c32
  | 12 => some .c64
  | _ => none

/-- Modelled from the spec: §4.1 — `af_cast` takes an explicit target type
and never fails due to type incompatibility; only an invalid target-type
value is rejected (an unrecognized type enum value is `TypeMismatch`,
§7).  On success the output carries the target type over the input's
shape and values. -/
def afCast (slot : Option AFArray) (x : AFArray) (code : Nat) :
    Option AFArray × Option AFError :=
  match decodeDtype code with
  | none => (slot, some .typeMismatch)
  | some t => (some ⟨t, x.shape, x.data⟩, none)

/-- Modelled from the spec: §4.4 step 6 and §6 (complex:
cplx/cplx2/real/imag/conjg) — the evaluation the backend performs for the
complex-family descriptors: `cplx2` pairs the real parts of its operands
as real and imaginary components; `real`/`imag` project a component.
Other descriptors are outside this reference backend. -/
def evalBackend : Backend := fun d args =>
  match d.op, args with
  | .cplx2, [l, r] =>
      .ok ⟨d.resultType, d.outShape, List.zipWith (fun x y => ⟨x.re, y.re⟩) l.data r.data⟩
  | .real, [x] => .ok ⟨d.resultType, d.outShape, x.data.map fun v => ⟨v.re, 0⟩⟩
  | .imag, [x] => .ok ⟨d.resultType, d.outShape, x.data.map fun v => ⟨v.im, 0⟩⟩
  | _, _ => .error .backendFailure

/-- A backend that always reports a backend-level failure; used to
instantiate theorems that hold for every backend. -/
def constBackend : Backend := fun _ _ => .error .backendFailure

/-- A one-element single-precision array, for concrete instantiations. -/
def sampleF32 : AFArray := ⟨.f32, ⟨1, 1, 1, 1⟩, [⟨0, 0⟩]⟩

/-!  Helper lemmas. -/

lemma Dim4.get_zero (d : Dim4) : d.get 0 = d.d0 := rfl

lemma Dim4.get_one (d : Dim4) : d.get 1 = d.d1 := rfl

lemma Dim4.get_two (d : Dim4) : d.get 2 = d.d2 := rfl

lemma Dim4.get_three (d : Dim4) : d.get 3 = d.d3 := rfl

lemma forall_fin4 (P : Fin 4 → Prop) : (∀ i, P i) ↔ P 0 ∧ P 1 ∧ P 2 ∧ P 3 := by
  constructor
  · exact fun h => ⟨h 0, h 1, h 2, h 3⟩
  · rintro ⟨h0, h1, h2, h3⟩ i
    fin_cases i <;> assumption

lemma dimMax_get (a b : Dim4) (i : Fin 4) : (dimMax a b).get i = max (a.get i) (b.get i) := by
  fin_cases i <;> rfl

lemma broadcastDim_ok_iff (a b : Nat) :
    (∃ r, broadcastDim a b = .ok r) ↔ broadcastableDim a b = true := by
  unfold broadcastDim
  by_cases h1 : a = b
  · rw [if_pos h1]
    simp [broadcastableDim, h1]
  · by_cases h2 : a = 1
    · rw [if_neg h1, if_pos h2]
      simp [broadcastableDim, h2]
    · by_cases h3 : b = 1
      · rw [if_neg h1, if_neg h2, if_pos h3]
        simp [broadcastableDim, h3]
      · rw [if_neg h1, if_neg h2, if_neg h3]
        simp [broadcastableDim, h1, h2, h3]

lemma broadcastDim_max (a b n : Nat) (x y : Bool)
    (h : broadcastDim a b = .ok (n, x, y)) : n = max a b := by
  unfold broadcastDim at h
  by_cases h1 : a = b
  · rw [if_pos h1] at h
    simp only [Except.ok.injEq, Prod.mk.injEq] at h
    omega
  · by_cases h2 : a = 1
    · rw [if_neg h1, if_pos h2] at h
      simp only [Except.ok.injEq, Prod.mk.injEq] at h
      omega
    · by_cases h3 : b = 1
      · rw [if_neg h1, if_neg h2, if_pos h3] at h
        simp only [Except.ok.injEq, Prod.mk.injEq] at h
        omega
      · rw [if_neg h1, if_neg h2, if_neg h3] at h
        simp at h

lemma broadcastDim_err (a b : Nat) (h : broadcastableDim a b = false) :
    broadcastDim a b = .error .shapeMismatch := by
  unfold broadcastableDim at h
  simp only [Bool.or_eq_false_iff, decide_eq_false_iff_not] at h
  unfold broadcastDim
  rw [if_neg h.1.1, if_neg h.1.2, if_neg h.2]

lemma broadcastBatch_ok_iff (a b : Dim4) :
    (∃ r, broadcastBatch a b = .ok r) ↔
      (broadcastableDim a.d0 b.d0 = true ∧ broadcastableDim a.d1 b.d1 = true ∧
       broadcastableDim a.d2 b.d2 = true ∧ broadcastableDim a.d3 b.d3 = true) := by
  rw [← broadcastDim_ok_iff, ← broadcastDim_ok_iff, ← broadcastDim_ok_iff,
      ← broadcastDim_ok_iff]
  rcases h0 : broadcastDim a.d0 b.d0 with e0 | r0 <;>
  rcases h1 : broadcastDim a.d1 b.d1 with e1 | r1 <;>
  rcases h2 : broadcastDim a.d2 b.d2 with e2 | r2 <;>
  rcases h3 : broadcastDim a.d3 b.d3 with e3 | r3 <;>
    simp [broadcastBatch, h0, h1, h2, h3]

lemma broadcastBatch_shape (a b : Dim4) (sh : Dim4) (pa pb : StridePlan)
    (h : broadcastBatch a b = .ok (sh, pa, pb)) : sh = dimMax a b := by
  rcases h0 : broadcastDim a.d0 b.d0 with e0 | ⟨o0, x0, y0⟩ <;>
  rcases h1 : broadcastDim a.d1 b.d1 with e1 | ⟨o1, x1, y1⟩ <;>
  rcases h2 : broadcastDim a.d2 b.d2 with e2 | ⟨o2, x2, y2⟩ <;>
  rcases h3 : broadcastDim a.d3 b.d3 with e3 | ⟨o3, x3, y3⟩ <;>
    simp [broadcastBatch, h0, h1, h2, h3] at h
  have e0 := broadcastDim_max _ _ _ _ _ h0
  have e1 := broadcastDim_max _ _ _ _ _ h1
  have e2 := broadcastDim_max _ _ _ _ _ h2
  have e3 := broadcastDim_max _ _ _ _ _ h3
  rw [← h.1]
  simp [dimMax, e0, e1, e2, e3]

lemma broadcastDim_err_eq (a b : Nat) (e : AFError)
    (h : broadcastDim a b = .error e) : e = .shapeMismatch := by
  unfold broadcastDim at h
  by_cases h1 : a = b
  · rw [if_pos h1] at h
    simp at h
  · by_cases h2 : a = 1
    · rw [if_neg h1, if_pos h2] at h
      simp at h
    · by_cases h3 : b = 1
      · rw [if_neg h1, if_neg h2, if_pos h3] at h
        simp at h
      · rw [if_neg h1, if_neg h2, if_neg h3] at h
        simp only [Except.error.injEq] at h
        exact h.symm

lemma broadcastBatch_err_eq (a b : Dim4) (e : AFError)
    (h : broadcastBatch a b = .error e) : e = .shapeMismatch := by
  rcases h0 : broadcastDim a.d0 b.d0 with e0 | r0 <;>
  rcases h1 : broadcastDim a.d1 b.d1 with e1 | r1 <;>
  rcases h2 : broadcastDim a.d2 b.d2 with e2 | r2 <;>
  rcases h3 : broadcastDim a.d3 b.d3 with e3 | r3 <;>
    simp [broadcastBatch, h0, h1, h2, h3] at h <;>
    subst h
  all_goals first
    | exact broadcastDim_err_eq _ _ _ h0
    | exact broadcastDim_err_eq _ _ _ h1
    | exact broadcastDim_err_eq _ _ _ h2
    | exact broadcastDim_err_eq _ _ _ h3

lemma broadcastBatch_err (a b : Dim4)
    (h : ¬(broadcastableDim a.d0 b.d0 = true ∧ broadcastableDim a.d1 b.d1 = true ∧
           broadcastableDim a.d2 b.d2 = true ∧ broadcastableDim a.d3 b.d3 = true)) :
    broadcastBatch a b = .error .shapeMismatch := by
  rcases h4 : broadcastBatch a b with e | r
  · rw [broadcastBatch_err_eq a b e h4]
  · exact absurd ((broadcastBatch_ok_iff a b).mp ⟨r, h4⟩) h

/-- C1: with `batch = true`, broadcasting succeeds exactly when in each
dimension (short shapes padded with trailing extent 1) the two extents are
equal or at least one is 1; on success each output extent is the maximum
of the two; an incompatible dimension pair yields `ShapeMismatch`; and
shapes `[4,1]` and `[4,3]` broadcast to `[4,3]` (the `[4,1]` operand
replayed with a zero-stride read in dimension 1). -/
theorem broadcast_batch_true_claim (a b : Dim4) :
    ((∃ r, broadcast a b true = .ok r) ↔
      ∀ i : Fin 4, broadcastableDim (a.get i) (b.get i) = true)
    ∧ (∀ sh pa pb, broadcast a b true = .ok (sh, pa, pb) →
        ∀ i : Fin 4, sh.get i = max (a.get i) (b.get i))
    ∧ ((∃ i : Fin 4, broadcastableDim (a.get i) (b.get i) = false) →
        broadcast a b true = .error .shapeMismatch)
    ∧ broadcast (padShape [4, 1]) (padShape [4, 3]) true =
        .ok (padShape [4, 3], ⟨false, true, false, false⟩, identityPlan) := by
  have hb : broadcast a b true = broadcastBatch a b := rfl
  refine ⟨?_, ?_, ?_, ?_⟩
  · rw [hb, broadcastBatch_ok_iff, forall_fin4]
    simp only [Dim4.get_zero, Dim4.get_one, Dim4.get_two, Dim4.get_three]
  · intro sh pa pb h i
    rw [hb] at h
    rw [broadcastBatch_shape a b sh pa pb h, dimMax_get]
  · rintro ⟨i, hi⟩
    rw [hb]
    apply broadcastBatch_err
    rintro ⟨c0, c1, c2, c3⟩
    fin_cases i <;> simp [Dim4.get] at hi <;> simp_all
  · rfl

/-- Closed instance of `broadcast_batch_true_claim`: the `[4,1]`/`[4,3]`
scenario's output extents are the dimension maxima, and an incompatible
pair (`[3,1]` against `[2,2]`) is a `ShapeMismatch`. -/
theorem broadcast_batch_true_claim_witness :
    (∀ i : Fin 4, (padShape [4, 3]).get i =
        max ((padShape [4, 1]).get i) ((padShape [4, 3]).get i))
    ∧ broadcast (padShape [3, 1]) (padShape [2, 2]) true = .error .shapeMismatch :=
  ⟨(broadcast_batch_true_claim (padShape [4, 1]) (padShape [4, 3])).2.1
      (padShape [4, 3]) ⟨false, true, false, false⟩ identityPlan
      (broadcast_batch_true_claim (padShape [4, 1]) (padShape [4, 3])).2.2.2,
   (broadcast_batch_true_claim (padShape [3, 1]) (padShape [2, 2])).2.2.1
      ⟨0, by decide⟩⟩

/-- C5: with `batch = false`, a binary call's broadcast succeeds only when
every dimension extent of A equals the corresponding extent of B exactly;
any mismatch is `ShapeMismatch` even when broadcast-compatible, and on
success the output shape is the operands' shape with identity
(no-replication) stride rules. -/
theorem broadcast_batch_false_claim (a b : Dim4) :
    ((∃ r, broadcast a b false = .ok r) ↔ ∀ i : Fin 4, a.get i = b.get i)
    ∧ broadcast a b false =
        (if a = b then .ok (a, identityPlan, identityPlan)
         else .error .shapeMismatch) := by
  rw [forall_fin4]
  simp only [Dim4.get_zero, Dim4.get_one, Dim4.get_two, Dim4.get_three]
  obtain ⟨a0, a1, a2, a3⟩ := a
  obtain ⟨b0, b1, b2, b3⟩ := b
  by_cases e0 : a0 = b0 <;> by_cases e1 : a1 = b1 <;> by_cases e2 : a2 = b2 <;>
    by_cases e3 : a3 = b3 <;>
    simp [broadcast, broadcastExact, Dim4.mk.injEq, e0, e1, e2, e3]

lemma broadcast_self (s : Dim4) (batch : Bool) :
    broadcast s s batch = .ok (s, identityPlan, identityPlan) := by
  cases batch
  · simp [broadcast, broadcastExact]
  · simp [broadcast, broadcastBatch, broadcastDim, identityPlan]

/-- C6: on operands of identical shape, a binary entry point behaves the
same with `batch = false` and `batch = true`, for every backend and every
operator — the batch relaxation changes behavior only when the shapes
differ. -/
theorem same_shape_batch_irrelevant (be : Backend) (op : OpId)
    (slot : Option AFArray) (l r : AFArray) (h : l.shape = r.shape) :
    afBinary be op slot l r false = afBinary be op slot l r true := by
  unfold afBinary dispatchBinary
  rw [h, broadcast_self, broadcast_self]

/-- Closed instance of `same_shape_batch_irrelevant` at a concrete
operator, backend and operand pair. -/
theorem same_shape_batch_irrelevant_witness :
    afBinary constBackend .add none sampleF32 sampleF32 false =
      afBinary constBackend .add none sampleF32 sampleF32 true :=
  same_shape_batch_irrelevant constBackend .add none sampleF32 sampleF32 rfl

/-- The uniform outcome of §4.5: either success was returned and the slot
now holds exactly one output handle, or a discriminated error was returned
and the slot is untouched. -/
def outcomeOK (res : Option AFArray × Option AFError) (slot : Option AFArray) : Prop :=
  (res.2 = none ∧ ∃ out, res.1 = some out) ∨ (res.1 = slot ∧ ∃ e, res.2 = some e)

lemma reportTo_outcome (slot : Option AFArray) (x : Except AFError AFArray) :
    outcomeOK (reportTo slot x) slot := by
  cases x with
  | error e => exact Or.inr ⟨rfl, e, rfl⟩
  | ok out => exact Or.inl ⟨rfl, out, rfl⟩

/-- C2: every entry point form (binary, unary, cast, clamp) satisfies the
all-or-nothing result contract for every backend and input: exactly one of
{slot populated with a handle, success} or {slot untouched, discriminated
failure} holds; and a failing dispatch step is terminal — a domain-check
failure yields `InvalidType` with the slot untouched no matter what the
backend or the shapes would have done later. -/
theorem entry_point_contract (be : Backend) (slot : Option AFArray) :
    (∀ op l r batch, outcomeOK (afBinary be op slot l r batch) slot)
    ∧ (∀ op x, outcomeOK (afUnary be op slot x) slot)
    ∧ (∀ x code, outcomeOK (afCast slot x code) slot)
    ∧ (∀ x lo hi batch, outcomeOK (afClamp be slot x lo hi batch) slot)
    ∧ (∀ op l r batch, domainOK op [l.dtype, r.dtype] = false → arity op = 2 →
        afBinary be op slot l r batch = (slot, some .invalidType)) := by
  refine ⟨fun op l r batch => reportTo_outcome _ _, fun op x => reportTo_outcome _ _,
    ?_, fun x lo hi batch => reportTo_outcome _ _, ?_⟩
  · intro x code
    unfold afCast
    rcases h : decodeDtype code with - | t
    · exact Or.inr ⟨rfl, _, rfl⟩
    · exact Or.inl ⟨rfl, _, rfl⟩
  · intro op l r batch hdom har
    unfold afBinary dispatchBinary validateArity domainCheck
    rw [if_pos har, if_neg (by simp [hdom])]
    rfl

/-- Closed instance of `entry_point_contract`: contract outcomes at a
concrete backend and inputs, and the terminal domain failure of `bitand`
on floating operands. -/
theorem entry_point_contract_witness :
    outcomeOK (afBinary constBackend .bitand none sampleF32 sampleF32 false) none
    ∧ afBinary constBackend .bitand none sampleF32 sampleF32 false =
        (none, some .invalidType) :=
  ⟨(entry_point_contract constBackend none).1 .bitand sampleF32 sampleF32 false,
   (entry_point_contract constBackend none).2.2.2.2 .bitand sampleF32 sampleF32 false
     (by decide) (by decide)⟩

/-- C4: every bitwise or shift operation given a floating-point or complex
operand fails with `InvalidType` — a domain violation, not a promotion —
and no output handle is written (the slot is untouched), for every
backend, batch flag and shapes. -/
theorem bitwise_float_invalid (be : Backend) (slot : Option AFArray)
    (op : OpId) (l r : AFArray) (batch : Bool)
    (hop : op = .bitand ∨ op = .bitor ∨ op = .bitxor ∨
           op = .bitshiftl ∨ op = .bitshiftr)
    (ht : l.dtype.isFloatOrComplex = true ∨ r.dtype.isFloatOrComplex = true) :
    afBinary be op slot l r batch = (slot, some .invalidType) := by
  have hdom : domainOK op [l.dtype, r.dtype] = false := by
    rcases hop with rfl | rfl | rfl | rfl | rfl <;>
      rcases ht with h | h <;> simp [domainOK, h]
  have har : arity op = 2 := by
    rcases hop with rfl | rfl | rfl | rfl | rfl <;> rfl
  unfold afBinary dispatchBinary validateArity domainCheck
  rw [if_pos har, if_neg (by simp [hdom])]
  rfl

/-- Closed instance of `bitwise_float_invalid`: `bitand` on two
single-precision float operands. -/
theorem bitwise_float_invalid_witness :
    afBinary constBackend .bitand none sampleF32 sampleF32 false =
      (none, some .invalidType) :=
  bitwise_float_invalid constBackend none .bitand sampleF32 sampleF32 false
    (Or.inl rfl) (Or.inl (by decide))

lemma promote_is_lub : ∀ a b c : Dtype,
    a.below (promote a b) ∧ b.below (promote a b)
    ∧ (a.below c → b.below c → (promote a b).below c) := by decide

/-- C3: for every binary arithmetic operation the resolved result type is
the join (least upper bound) of the two operand types in the promotion
lattice ordered by `Dtype.rank` (boolean below the widening integers with
unsigned winning equal-width ties, below f32, f64, c32, c64); in
particular `add` on {s8, f64} resolves to f64. -/
theorem arithmetic_promotion_join (op : OpId) (a b c : Dtype)
    (hop : opClass op = .arithmetic) :
    binaryResultType op a b = promote a b
    ∧ a.below (promote a b) ∧ b.below (promote a b)
    ∧ (a.below c → b.below c → (promote a b).below c)
    ∧ binaryResultType .add .s8 .f64 = .f64
    ∧ promote .s8 .u8 = .u8 ∧ promote .s16 .u16 = .u16
    ∧ promote .s32 .u32 = .u32 ∧ promote .s64 .u64 = .u64 := by
  refine ⟨?_, (promote_is_lub a b c).1, (promote_is_lub a b c).2.1,
    (promote_is_lub a b c).2.2, by decide, by decide, by decide, by decide, by decide⟩
  unfold binaryResultType
  rw [hop]

/-- Closed instance of `arithmetic_promotion_join` at `add` on
{s8, f64} with upper bound c32. -/
theorem arithmetic_promotion_join_witness :
    binaryResultType .add .s8 .f64 = promote .s8 .f64
    ∧ (promote .s8 .f64).below .c32 :=
  ⟨(arithmetic_promotion_join .add .s8 .f64 .c32 rfl).1,
   (arithmetic_promotion_join .add .s8 .f64 .c32 rfl).2.2.2.1
     (by decide) (by decide)⟩

/-- C9: casting an array to its own element type returns the array
unchanged (for any prior content of the output slot the call succeeds and
writes exactly that array), and cast never fails on a recognized target
type — the call fails precisely on an invalid target-type value. -/
theorem cast_identity_and_totality (x : AFArray) :
    (∀ slot, afCast slot x (encodeDtype x.dtype) = (some x, none))
    ∧ (∀ slot code, (afCast slot x code).2 = none ↔ (decodeDtype code).isSome = true)
    ∧ (∀ slot t, afCast slot x (encodeDtype t) = (some ⟨t, x.shape, x.data⟩, none)) := by
  have hdec : ∀ t : Dtype, decodeDtype (encodeDtype t) = some t := by decide
  refine ⟨?_, ?_, ?_⟩
  · intro slot
    unfold afCast
    rw [hdec]
  · intro slot code
    unfold afCast
    rcases h : decodeDtype code with - | t <;> simp [h]
  · intro slot t
    unfold afCast
    rw [hdec]

/-- C8: `clamp` broadcasts (input, lo) and (input, hi) pairwise and
independently and succeeds only when the two resulting output shapes are
identical; when both broadcasts succeed with different shapes the call is
a `ShapeMismatch`; in particular input `[3,1]`, lo `[1,3]` (broadcast
`[3,3]`) and hi `[3,1]` (broadcast `[3,1]`) fail with `ShapeMismatch` for
every backend. -/
theorem clamp_pairwise_broadcast (be : Backend) (slot : Option AFArray)
    (x lo hi : AFArray) (batch : Bool) :
    (∀ out, afClamp be slot x lo hi batch = (some out, none) →
      ∃ s p1 p2 q1 q3, broadcast x.shape lo.shape batch = .ok (s, p1, p2)
        ∧ broadcast x.shape hi.shape batch = .ok (s, q1, q3))
    ∧ (∀ s1 p1 p2 s2 q1 q3, broadcast x.shape lo.shape batch = .ok (s1, p1, p2) →
        broadcast x.shape hi.shape batch = .ok (s2, q1, q3) → s1 ≠ s2 →
        afClamp be slot x lo hi batch = (slot, some .shapeMismatch))
    ∧ afClamp be slot ⟨.f32, padShape [3, 1], []⟩ ⟨.f32, padShape [1, 3], []⟩
        ⟨.f32, padShape [3, 1], []⟩ true = (slot, some .shapeMismatch) := by
  have hd : dispatchClamp be x lo hi batch =
      (match broadcast x.shape lo.shape batch with
       | .error e => .error e
       | .ok (s1, p1, p2) =>
         match broadcast x.shape hi.shape batch with
         | .error e => .error e
         | .ok (s2, _, p3) =>
           if s1 = s2 then
             be ⟨.clamp, promote (promote x.dtype lo.dtype) hi.dtype, s1, [p1, p2, p3]⟩
                [x, lo, hi]
           else .error .shapeMismatch) := rfl
  refine ⟨?_, ?_, rfl⟩
  · intro out h
    unfold afClamp at h
    rw [hd] at h
    rcases h3 : broadcast x.shape lo.shape batch with e | ⟨s1, p1, p2⟩ <;> rw [h3] at h
    · simp [reportTo] at h
    · rcases h4 : broadcast x.shape hi.shape batch with e | ⟨s2, q1, q3⟩ <;> rw [h4] at h
      · simp [reportTo] at h
      · by_cases h5 : s1 = s2
        · subst h5
          exact ⟨s1, p1, p2, q1, q3, rfl, rfl⟩
        · simp [reportTo, h5] at h
  · intro s1 p1 p2 s2 q1 q3 h3 h4 hne
    unfold afClamp
    rw [hd, h3, h4]
    simp [reportTo, hne]

/-- Closed instance of `clamp_pairwise_broadcast`: the mismatching
broadcast pair of the scenario, derived by applying the theorem's
mismatch branch at the concrete arrays. -/
theorem clamp_pairwise_broadcast_witness :
    afClamp constBackend none ⟨.f32, padShape [3, 1], []⟩ ⟨.f32, padShape [1, 3], []⟩
      ⟨.f32, padShape [3, 1], []⟩ true = (none, some .shapeMismatch) :=
  (clamp_pairwise_broadcast constBackend none ⟨.f32, padShape [3, 1], []⟩
      ⟨.f32, padShape [1, 3], []⟩ ⟨.f32, padShape [3, 1], []⟩ true).2.1
    (padShape [3, 3]) ⟨false, true, false, false⟩ ⟨true, false, false, false⟩
    (padShape [3, 1]) identityPlan identityPlan rfl rfl (by decide)

lemma promote_self (a : Dtype) : promote a a = a := by
  unfold promote
  simp

lemma map_re_zipWith (xs ys : List CVal) (hlen : xs.length = ys.length)
    (hx : ∀ v ∈ xs, v.im = 0) :
    (List.zipWith (fun x y => (⟨x.re, y.re⟩ : CVal)) xs ys).map
      (fun v => (⟨v.re, 0⟩ : CVal)) = xs := by
  induction xs generalizing ys with
  | nil => simp
  | cons x xs ih =>
    cases ys with
    | nil => simp at hlen
    | cons y ys =>
      simp only [List.zipWith_cons_cons, List.map_cons, List.cons.injEq]
      constructor
      · obtain ⟨xre, xim⟩ := x
        have h0 : xim = 0 := hx ⟨xre, xim⟩ (List.mem_cons_self _ _)
        rw [h0]
      · exact ih ys (by simpa using hlen) fun v hv => hx v (List.mem_cons_of_mem _ hv)

lemma map_im_zipWith (xs ys : List CVal) (hlen : xs.length = ys.length)
    (hy : ∀ v ∈ ys, v.im = 0) :
    (List.zipWith (fun x y => (⟨x.re, y.re⟩ : CVal)) xs ys).map
      (fun v => (⟨v.im, 0⟩ : CVal)) = ys := by
  induction xs generalizing ys with
  | nil =>
    cases ys with
    | nil => simp
    | cons y ys => simp at hlen
  | cons x xs ih =>
    cases ys with
    | nil => simp at hlen
    | cons y ys =>
      simp only [List.zipWith_cons_cons, List.map_cons, List.cons.injEq]
      constructor
      · obtain ⟨yre, yim⟩ := y
        have h0 : yim = 0 := hy ⟨yre, yim⟩ (List.mem_cons_self _ _)
        rw [h0]
      · exact ih ys (by simpa using hlen) fun v hv => hy v (List.mem_cons_of_mem _ hv)

/-- C7: constructing a complex array from two real-valued floating arrays
and projecting back recovers each part: when `a` and `b` agree in element
type (f32 or f64), shape and length and carry no imaginary component,
`cplx2` succeeds and `real`/`imag` of the result return exactly `a` and
`b`. -/
theorem cplx2_real_imag_roundtrip (l r : AFArray)
    (hf : l.dtype = .f32 ∨ l.dtype = .f64)
    (hdt : r.dtype = l.dtype)
    (hsh : r.shape = l.shape)
    (hlen : l.data.length = r.data.length)
    (hl : ∀ v ∈ l.data, v.im = 0) (hr : ∀ v ∈ r.data, v.im = 0) :
    ∃ c, afBinary evalBackend .cplx2 none l r false = (some c, none)
      ∧ afUnary evalBackend .real none c = (some l, none)
      ∧ afUnary evalBackend .imag none c = (some r, none) := by
  have hre : realify (complexify l.dtype) = l.dtype := by
    rcases hf with h | h <;> rw [h] <;> rfl
  refine ⟨⟨complexify l.dtype, l.shape,
    List.zipWith (fun x y => (⟨x.re, y.re⟩ : CVal)) l.data r.data⟩, ?_, ?_, ?_⟩
  · have hdom : domainCheck OpId.cplx2 [l.dtype, r.dtype] = .ok () := by
      unfold domainCheck
      rw [if_pos]
      show domainOK OpId.cplx2 [l.dtype, r.dtype] = true
      rcases hf with h | h <;> simp [domainOK, hdt, h, Dtype.isFloating]
    have hbt : binaryResultType OpId.cplx2 l.dtype r.dtype = complexify l.dtype := by
      show complexify (promote l.dtype r.dtype) = complexify l.dtype
      rw [hdt, promote_self]
    have step : afBinary evalBackend .cplx2 none l r false =
        (some ⟨binaryResultType OpId.cplx2 l.dtype r.dtype, l.shape,
          List.zipWith (fun x y => (⟨x.re, y.re⟩ : CVal)) l.data r.data⟩, none) := by
      unfold afBinary dispatchBinary
      rw [hsh, broadcast_self, hdom]
      rfl
    rw [step, hbt]
  · have e2 : afUnary evalBackend .real none
        ⟨complexify l.dtype, l.shape,
          List.zipWith (fun x y => (⟨x.re, y.re⟩ : CVal)) l.data r.data⟩ =
        (some ⟨realify (complexify l.dtype), l.shape,
          (List.zipWith (fun x y => (⟨x.re, y.re⟩ : CVal)) l.data r.data).map
            (fun v => (⟨v.re, 0⟩ : CVal))⟩, none) := rfl
    rw [e2, map_re_zipWith l.data r.data hlen hl, hre]
  · have e3 : afUnary evalBackend .imag none
        ⟨complexify l.dtype, l.shape,
          List.zipWith (fun x y => (⟨x.re, y.re⟩ : CVal)) l.data r.data⟩ =
        (some ⟨realify (complexify l.dtype), l.shape,
          (List.zipWith (fun x y => (⟨x.re, y.re⟩ : CVal)) l.data r.data).map
            (fun v => (⟨v.im, 0⟩ : CVal))⟩, none) := rfl
    rw [e3, map_im_zipWith l.data r.data hlen hr, hre, ← hdt, ← hsh]

/-- Closed instance of `cplx2_real_imag_roundtrip` on two concrete
two-element f32 arrays. -/
theorem cplx2_real_imag_roundtrip_witness :
    ∃ c, afBinary evalBackend .cplx2 none
        ⟨.f32, padShape [2], [⟨1, 0⟩, ⟨2, 0⟩]⟩ ⟨.f32, padShape [2], [⟨3, 0⟩, ⟨4, 0⟩]⟩
        false = (some c, none)
      ∧ afUnary evalBackend .real none c =
          (some ⟨.f32, padShape [2], [⟨1, 0⟩, ⟨2, 0⟩]⟩, none)
      ∧ afUnary evalBackend .imag none c =
          (some ⟨.f32, padShape [2], [⟨3, 0⟩, ⟨4, 0⟩]⟩, none) :=
  cplx2_real_imag_roundtrip ⟨.f32, padShape [2], [⟨1, 0⟩, ⟨2, 0⟩]⟩
    ⟨.f32, padShape [2], [⟨3, 0⟩, ⟨4, 0⟩]⟩ (Or.inl rfl) rfl rfl rfl
    (by decide) (by decide)

/-- C10 fails as stated: `af_pow2` is declared in the header but absent
from the specification's §6 operator catalog enumeration, so the declared
operations do not all map onto catalog entries. -/
theorem pow2_breaks_catalog_correspondence :
    OpId.pow2 ∈ headerOps ∧ OpId.pow2 ∉ specCatalog := by decide

/-- C10 amended: every header operator except `pow2` maps one-to-one onto
an entry of the spec's catalog enumeration, every catalog entry names a
declared header operator, both lists are duplicate-free, and the header
declares exactly one operation (`pow2`) more than the 69-entry catalog. -/
theorem header_catalog_correspondence :
    headerOps.Nodup ∧ specCatalog.Nodup
    ∧ (∀ op ∈ headerOps, op = OpId.pow2 ∨ op ∈ specCatalog)
    ∧ (∀ op ∈ specCatalog, op ∈ headerOps)
    ∧ headerOps.length = 70 ∧ specCatalog.length = 69 := by decide

/-- Closed instance of `header_catalog_correspondence` at the `add`
operator. -/
theorem header_catalog_correspondence_witness :
    OpId.add = OpId.pow2 ∨ OpId.add ∈ specCatalog :=
  header_catalog_correspondence.2.2.1 OpId.add (by decide)

end ArrayFire
